import Mathlib

/-!
Shallow embedding of the FlexCell NX ingestion, validation, migration and
batching engine (utils, pdfService, emailService, App), together with
theorems checking the specification claims against it.

Modelling conventions:
* JavaScript numbers are modelled as exact rationals; the special value NaN
  is modelled explicitly by the type JNum.  Binary floating point rounding
  is not modelled.
* JavaScript strings are modelled as Lean strings; Buffer.byteLength with
  utf8 encoding is the sum of the UTF-8 sizes of the code points.
* The regular expressions used by the source are embedded as specialised
  matching functions over character lists, faithful to ECMAScript
  semantics for the concrete patterns of the source.  In particular the
  word class underlying a word boundary is [A-Za-z0-9_], so an underscore
  is a word character and no boundary exists between a digit and an
  underscore.
* Loosely typed legacy inputs are modelled by JSPrim and JSVal below; a
  field value that is itself an object is modelled by an opaque marker.
* Nondeterministic id generation (Math.random) and the current date are
  modelled as explicit parameters.
-/

set_option maxRecDepth 100000

-- ======== basic character and string helpers ========

def isDigitChar (c : Char) : Bool := c.isDigit

/-- Word character of the ECMAScript classes backslash-w and backslash-b:
the set [A-Za-z0-9_]. -/
def isWordChar (c : Char) : Bool := c.isAlpha || c.isDigit || c == '_'

/-- Check that the first list occurs at the head of the second. -/
def chunkLeads : List Char → List Char → Bool
  | [], _ => true
  | _ :: _, [] => false
  | a :: as, b :: bs => a == b && chunkLeads as bs

def strToLower (s : String) : String := String.mk (s.data.map Char.toLower)

def strEndsWith (s post : String) : Bool :=
  chunkLeads post.data.reverse s.data.reverse

def digitsToNat (l : List Char) : Nat :=
  l.foldl (fun n c => n * 10 + (c.toNat - 48)) 0

def natToString (n : Nat) : String := String.mk (Nat.toDigits 10 n)

def intToString (i : Int) : String :=
  if i < 0 then "-" ++ natToString i.natAbs else natToString i.natAbs

/-- UTF-8 size of one code point; Buffer.byteLength with utf8 encoding
sums these. -/
def charUtf8Size (c : Char) : Nat :=
  if c.toNat ≤ 0x7F then 1
  else if c.toNat ≤ 0x7FF then 2
  else if c.toNat ≤ 0xFFFF then 3
  else 4

def utf8Len (s : String) : Nat :=
  (s.data.map charUtf8Size).sum

/-- Truncation toward zero, as parseInt applied to a finite number. -/
def ratTrunc (q : ℚ) : Int := if q < 0 then -(Rat.floor (-q)) else Rat.floor q

def digitChar (n : Nat) : Char := Char.ofNat (48 + n)

/-- Decimal digits of a rational in the interval from zero to one, emitted
until the remainder is zero or the fuel runs out. -/
def fracDigits : Nat → ℚ → List Char
  | 0, _ => []
  | fuel + 1, q =>
      if q = 0 then []
      else
        let d := Rat.floor (q * 10)
        digitChar d.natAbs :: fracDigits fuel (q * 10 - (d : ℚ))

/-- Stringification of a JavaScript number.  Exact for integers and for
rationals with a short terminating decimal expansion (the only values the
theorems below evaluate). -/
def qToString (q : ℚ) : String :=
  if q.den = 1 then intToString q.num
  else
    (if q < 0 then "-" else "") ++
      intToString (Rat.floor |q|) ++ "." ++
        String.mk (fracDigits 20 (|q| - (Rat.floor |q| : ℚ)))

-- ======== JavaScript value model ========

/-- JavaScript number: NaN or a finite value, modelled exactly. -/
inductive JNum where
  | nan : JNum
  | num (q : ℚ) : JNum
deriving DecidableEq

/-- Primitive JavaScript value appearing as the field of a legacy record.
A nested object is modelled opaquely by objMarker: truthy, of type object,
stringifying to the default object string. -/
inductive JSPrim where
  | null : JSPrim
  | undefined : JSPrim
  | str (s : String) : JSPrim
  | num (n : JNum) : JSPrim
  | bool (b : Bool) : JSPrim
  | objMarker : JSPrim
deriving DecidableEq

/-- Top-level input of the record migrator: a primitive, or an object given
by its field list. -/
inductive JSVal where
  | prim (p : JSPrim) : JSVal
  | obj (fields : List (String × JSPrim)) : JSVal
deriving DecidableEq

def truthy : JSPrim → Bool
  | .null | .undefined => false
  | .str s => s != ""
  | .num .nan => false
  | .num (.num q) => q != 0
  | .bool b => b
  | .objMarker => true

def jsToString : JSPrim → String
  | .null => "null"
  | .undefined => "undefined"
  | .str s => s
  | .num .nan => "NaN"
  | .num (.num q) => qToString q
  | .bool true => "true"
  | .bool false => "false"
  | .objMarker => "[object Object]"

/-- Defaulting expression x || d of the source, for a general value. -/
def jsOr (a b : JSPrim) : JSPrim := if truthy a then a else b

def isSpaceChar (c : Char) : Bool :=
  c == ' ' || c == '\t' || c == '\n' || c == '\r'

def splitSign : List Char → Bool × List Char
  | '-' :: rest => (true, rest)
  | '+' :: rest => (false, rest)
  | l => (false, l)

/-- Leading-integer parse of parseInt with radix ten: skip whitespace,
optional sign, then a nonempty digit run; anything else gives NaN,
modelled as none. -/
def parseIntChars (l : List Char) : Option Int :=
  let l2 := l.dropWhile isSpaceChar
  let sl := splitSign l2
  let ds := sl.2.takeWhile isDigitChar
  if ds.isEmpty then none
  else some ((if sl.1 then -1 else 1) * (digitsToNat ds : Int))

/-- Leading-decimal parse of parseFloat: skip whitespace, optional sign,
digits with an optional fractional part.  Exponent notation and Infinity
are not modelled; no theorem below evaluates them. -/
def parseFloatChars (l : List Char) : JNum :=
  let l2 := l.dropWhile isSpaceChar
  let sl := splitSign l2
  let ds := sl.2.takeWhile isDigitChar
  let rest := sl.2.drop ds.length
  let fs := match rest with
    | '.' :: r => r.takeWhile isDigitChar
    | _ => []
  if ds.isEmpty && fs.isEmpty then .nan
  else
    let ip : ℚ := (digitsToNat ds : ℚ)
    let fp : ℚ := (digitsToNat fs : ℚ) / ((10 : ℚ) ^ fs.length)
    .num ((if sl.1 then -1 else 1) * (ip + fp))

/-- Conversion performed by parseInt on an arbitrary value: the value is
first stringified.  The default string of null, undefined, booleans and
objects starts with no digit, hence NaN. -/
def parseIntVal : JSPrim → Option Int
  | .num .nan => none
  | .num (.num q) => some (ratTrunc q)
  | .str s => parseIntChars s.data
  | _ => none

/-- Conversion performed by parseFloat on an arbitrary value, as for
parseIntVal. -/
def parseFloatVal : JSPrim → JNum
  | .num n => n
  | .str s => parseFloatChars s.data
  | _ => .nan

/-- Defaulting expression n || d after a numeric conversion: NaN and zero
are falsy. -/
def jnumDefault (n : JNum) (d : ℚ) : ℚ :=
  match n with
  | .nan => d
  | .num q => if q = 0 then d else q

/-- Property read on a loosely typed object; a missing key reads as
undefined. -/
def getField (fs : List (String × JSPrim)) (k : String) : JSPrim :=
  match fs.find? (fun p => p.1 == k) with
  | some p => p.2
  | none => .undefined

-- ======== data model (types.ts) ========

/-- Canonical order item.  The fields id, jobType and date are kept as raw
JavaScript values because the migrator passes any truthy input value for
them through unchanged; the remaining string fields go through an explicit
String conversion in the migrator and are therefore genuine strings. -/
structure OrderItem where
  id : JSPrim
  os : String
  clientDescription : String
  colors : String
  jobType : JSPrim
  date : JSPrim
  width : ℚ
  height : ℚ
  games : Int
  pricePerCm2 : ℚ
  observations : String
deriving DecidableEq

/-- Order item extended with the two derived numeric fields. -/
structure CalculatedItem extends OrderItem where
  cm2Total : ℚ
  totalValue : ℚ
deriving DecidableEq

structure ColorDetection where
  colors : List String
  gameCount : Nat
deriving DecidableEq

/-- Width and height pair returned by the extractors, in centimeters. -/
structure Dims where
  width : ℚ
  height : ℚ
deriving DecidableEq

structure HistoryBatch where
  id : String
  timestamp : String
  items : List OrderItem
  stockSnapshot : ℚ
  month : Nat
  year : Nat
deriving DecidableEq

structure EmailBatch where
  items : List OrderItem
  batchNumber : Nat
  totalBatches : Nat
deriving DecidableEq

/-- The default rate constant 0.0798 of the source. -/
def DEFAULT_RATE : ℚ := 399 / 5000

-- ======== validation helpers (utils.ts) ========

/-- Embedding of validateDimensions.  The result object valid or error is
modelled as an optional error string, none meaning valid.  The inputs of
every call site are numbers, so the branch rejecting non-number arguments
is unreachable in the embedding; the NaN branch is modelled through JNum. -/
def validateDimensions (w h : JNum) : Option String :=
  match w, h with
  | .nan, _ => some "Dimensões contêm valores inválidos"
  | _, .nan => some "Dimensões contêm valores inválidos"
  | .num wq, .num hq =>
      if wq ≤ 0 || hq ≤ 0 then some "Dimensões devem ser maiores que zero"
      else if 500 < wq || 500 < hq then some "Dimensões muito grandes (máximo 500cm)"
      else none

/-- Embedding of validateGames: integer-parse the raw value, coerce any
failure or non-positive result to one. -/
def validateGames (raw : JSPrim) : Int :=
  match parseIntVal raw with
  | none => max 1 1
  | some n => max 1 n

-- ======== heuristic extractor (utils.ts) ========

/-- One scan step of the test of a word-bounded pattern: a boundary holds
before the current position when the previous character is absent or not a
word character (every pattern of the source starts with a word character). -/
def boundaryBefore : Option Char → Bool
  | none => true
  | some p => !isWordChar p

/-- Word boundary after a match ending in a word character: end of input or
a non-word character. -/
def boundaryAfter : List Char → Bool
  | [] => true
  | c :: _ => !isWordChar c

/-- Generic leftmost scan: p receives the suffix starting at the scan
position and is guarded by the word boundary before that position. -/
def scanBound (p : List Char → Bool) : Option Char → List Char → Bool
  | _, [] => false
  | prev, c :: rest =>
      (boundaryBefore prev && p (c :: rest)) || scanBound p (some c) rest

/-- Match of one alternation of word-character literals at the current
position, followed by a word boundary. -/
def altsMatchAt (alts : List (List Char)) (l : List Char) : Bool :=
  alts.any (fun a => chunkLeads a l && boundaryAfter (l.drop a.length))

/-- Test of a pattern of the shape word-boundary, alternation of literal
words, word-boundary, as used by the color recognizers.  All alternatives
of the source start and end with word characters. -/
def testWordAlts (alts : List String) (s : String) : Bool :=
  scanBound (altsMatchAt (alts.map String.data)) none s.data

/-- Match at the current position of the spot-color pattern: three to five
digits, then the letter c, then a word boundary.  The quantifier is tried
greedily with backtracking, hence the disjunction over the three lengths. -/
def pantoneAt (l : List Char) : Bool :=
  [3, 4, 5].any (fun k =>
    (l.take k).length = k && (l.take k).all isDigitChar &&
      (match l.drop k with
       | 'c' :: rest => boundaryAfter rest
       | _ => false))

def testPantone (s : String) : Bool := scanBound pantoneAt none s.data

/-- Match at the current position of the gray pattern: the word gray, one
digit between one and four, then a word boundary. -/
def grayAt (l : List Char) : Bool :=
  match l with
  | 'g' :: 'r' :: 'a' :: 'y' :: d :: rest =>
      (d == '1' || d == '2' || d == '3' || d == '4') && boundaryAfter rest
  | _ => false

def testGray (s : String) : Bool := scanBound grayAt none s.data

/-- One entry of the ordered recognizer list of detectColors. -/
structure ColorPattern where
  test : String → Bool
  name : String
  games : Nat

/-- The fixed ordered recognizer list of the source. -/
def colorPatterns : List ColorPattern :=
  [ ⟨testWordAlts ["cmyk"], "CMYK", 4⟩,
    ⟨testPantone, "PANTONE", 1⟩,
    ⟨testGray, "GRAY", 1⟩,
    ⟨testWordAlts ["black", "preto", "pb", "p&b"], "BLACK", 1⟩,
    ⟨testWordAlts ["white", "branco"], "WHITE", 1⟩,
    ⟨testWordAlts ["red"], "RED", 1⟩,
    ⟨testWordAlts ["blue"], "BLUE", 1⟩ ]

/-- Embedding of detectColors: lowercase the filename, run every
recognizer in order, collect the matching tags and the running total of
implied games, and return at least one game. -/
def detectColors (filename : String) : ColorDetection :=
  if filename = "" then ⟨[], 1⟩
  else
    let lower := strToLower filename
    let step := colorPatterns.foldl
      (fun (acc : List String × Nat) p =>
        if p.test lower then (acc.1 ++ [p.name], acc.2 + p.games) else acc)
      ([], 0)
    ⟨if step.1.length > 0 then step.1 else [], max 1 step.2⟩

/-- Match at the current position of the job-number pattern: word
boundary, four or more digits, word boundary.  Because every shorter
greedy retry of the quantifier ends in front of a further digit, which is
a word character, the pattern matches exactly when the maximal digit run
at the position has length at least four and is followed by a boundary. -/
def osMatchAt (l : List Char) : Option String :=
  let run := l.takeWhile isDigitChar
  if 4 ≤ run.length && boundaryAfter (l.drop run.length) then
    some (String.mk run)
  else none

/-- Leftmost scan of the job-number pattern.  A scan position inside a
digit run never matches because the previous character is then a word
character, so advancing one character at a time is faithful. -/
def extractOSAux : Option Char → List Char → String
  | _, [] => ""
  | prev, c :: rest =>
      if boundaryBefore prev && isDigitChar c then
        match osMatchAt (c :: rest) with
        | some r => r
        | none => extractOSAux (some c) rest
      else extractOSAux (some c) rest

/-- Embedding of extractOS. -/
def extractOS (filename : String) : String :=
  if filename = "" then "" else extractOSAux none filename.data

/-- Parse at the current position a number of the dimension pattern: one
or more digits with an optional fractional part.  The quantifiers are
greedy; no shorter parse can succeed because the following pattern element
never matches a digit, so the maximal parse is faithful.  The dot is
consumed only when a digit follows, as in the pattern. -/
def parseNumberAt (l : List Char) : Option (List Char × List Char) :=
  let ds := l.takeWhile isDigitChar
  if ds.isEmpty then none
  else
    let rest := l.drop ds.length
    match rest with
    | '.' :: r =>
        let fs := r.takeWhile isDigitChar
        if fs.isEmpty then some (ds, rest)
        else some (ds ++ '.' :: fs, r.drop fs.length)
    | _ => some (ds, rest)

/-- Match at the current position of the dimension pattern: number,
optional whitespace, the letter x in either case, optional whitespace,
number, optional whitespace, the letters mm in either case. -/
def dimsMatchAt (l : List Char) : Option (List Char × List Char) :=
  match parseNumberAt l with
  | none => none
  | some (n1, r1) =>
      let r2 := r1.dropWhile isSpaceChar
      match r2 with
      | x :: r3 =>
          if x == 'x' || x == 'X' then
            match parseNumberAt (r3.dropWhile isSpaceChar) with
            | none => none
            | some (n2, r5) =>
                match r5.dropWhile isSpaceChar with
                | m1 :: m2 :: _ =>
                    if (m1 == 'm' || m1 == 'M') && (m2 == 'm' || m2 == 'M') then
                      some (n1, n2)
                    else none
                | _ => none
          else none
      | [] => none

/-- Leftmost scan for the dimension pattern; it carries no word boundary,
so every position is tried. -/
def findDims : List Char → Option (List Char × List Char)
  | [] => none
  | c :: rest =>
      match dimsMatchAt (c :: rest) with
      | some r => some r
      | none =>
          match c with
          | _ => findDims rest

/-- Rounding of toFixed with two digits followed by parseFloat: the
nearest multiple of one hundredth, ties toward positive infinity. -/
def toFixed2 (q : ℚ) : ℚ := ((Rat.floor (q * 100 + 1 / 2) : ℚ)) / 100

/-- Embedding of extractDimensions: match the millimeter pattern, convert
to centimeters with two-digit rounding, and discard the match when the
dimension check fails. -/
def extractDimensions (filename : String) : Option Dims :=
  if filename = "" then none
  else
    match findDims filename.data with
    | none => none
    | some (w, h) =>
        let widthMm : ℚ :=
          match parseFloatChars w with | .nan => 0 | .num q => q
        let heightMm : ℚ :=
          match parseFloatChars h with | .nan => 0 | .num q => q
        let widthCm := toFixed2 (widthMm / 10)
        let heightCm := toFixed2 (heightMm / 10)
        match validateDimensions (.num widthCm) (.num heightCm) with
        | some _ => none
        | none => some ⟨widthCm, heightCm⟩

/-- Embedding of calculatePdfDimensions: points to centimeters, plus the
margin on both sides, rounded to two digits. -/
def calculatePdfDimensions (pageWidth pageHeight : ℚ) (marginCm : ℚ) : Dims :=
  let widthCm := pageWidth * (254 / 100) / 72
  let heightCm := pageHeight * (254 / 100) / 72
  ⟨toFixed2 (widthCm + marginCm * 2), toFixed2 (heightCm + marginCm * 2)⟩

-- ======== record migrator (utils.ts) ========

/-- Embedding of migrateOrderItem.  The source throws exactly when the
input is falsy or not of type object; a null input is of type object but
falsy, so the gate is equivalent to the input not being a non-null object,
which the model expresses by the two constructors of JSVal.  Each field is
defaulted independently; genId models the freshly generated random id and
today the current date. -/
def migrateOrderItem (genId today : String) (item : JSVal) : Except String OrderItem :=
  match item with
  | .prim _ => .error "Invalid order item"
  | .obj fs =>
      .ok {
        id := jsOr (getField fs "id") (.str genId),
        os := jsToString (jsOr (getField fs "os") (.str "")),
        clientDescription := jsToString (jsOr (getField fs "clientDescription") (.str "")),
        colors := jsToString (jsOr (getField fs "colors") (.str "")),
        jobType := jsOr (getField fs "jobType") (.str "Novo"),
        date := jsOr (getField fs "date") (.str today),
        width := jnumDefault (parseFloatVal (getField fs "width")) 0,
        height := jnumDefault (parseFloatVal (getField fs "height")) 0,
        games := validateGames (getField fs "games"),
        pricePerCm2 := jnumDefault (parseFloatVal (getField fs "pricePerCm2")) DEFAULT_RATE,
        observations := jsToString (jsOr (getField fs "observations") (.str "")) }

def exceptOk : Except String OrderItem → Bool
  | .ok _ => true
  | .error _ => false

def isObj : JSVal → Bool
  | .obj _ => true
  | .prim _ => false

-- ======== calculation engine (App.tsx) ========

/-- Embedding of calculateItem: extend the item with the derived area and
monetary value, no rounding. -/
def calculateItem (item : OrderItem) : CalculatedItem :=
  let cm2Total := item.width * item.height * (item.games : ℚ)
  { toOrderItem := item, cm2Total := cm2Total,
    totalValue := cm2Total * item.pricePerCm2 }

-- ======== email batch partitioner (emailService.ts) ========

def MAX_EMAIL_SIZE_BYTES : Nat := 4000

/-- Embedding of formatItemForEmail, the human-readable line used both for
transmission and for the size accounting. -/
def formatItemForEmail (item : OrderItem) (index : Nat) : String :=
  natToString index ++ ". OS: " ++ item.os ++ " | " ++ item.clientDescription ++
    " | Cores: " ++ (if item.colors = "" then "N/A" else item.colors) ++
    " | Dim: " ++ qToString item.width ++ "x" ++ qToString item.height ++ "cm"

/-- Serialized size of one record, Buffer.byteLength of its line with utf8
encoding, computed at index one exactly as in the source. -/
def emailItemSize (item : OrderItem) : Nat := utf8Len (formatItemForEmail item 1)

/-- Loop of splitIntoEmailBatches over the remaining items; the state is
the closed batches, the current batch and its accumulated size. -/
def splitLoop : List OrderItem → List EmailBatch → List OrderItem → Nat → List EmailBatch
  | [], batches, cur, _ =>
      if cur.length > 0 then batches ++ [⟨cur, batches.length + 1, 0⟩] else batches
  | it :: rest, batches, cur, curSize =>
      let itemSize := emailItemSize it
      if curSize + itemSize > MAX_EMAIL_SIZE_BYTES && cur.length > 0 then
        splitLoop rest (batches ++ [⟨cur, batches.length + 1, 0⟩]) [it] itemSize
      else
        splitLoop rest batches (cur ++ [it]) (curSize + itemSize)

/-- Embedding of splitIntoEmailBatches: run the loop, then back-fill every
totalBatches field with the final count. -/
def splitIntoEmailBatches (items : List OrderItem) : List EmailBatch :=
  let batches := splitLoop items [] [] 0
  batches.map (fun b => { b with totalBatches := batches.length })

/-- Partition following the wording of the specification, stated
independently of the source for the refinement claim: greedily accumulate
records into the current batch; before adding the next record, if the
current accumulated size plus the size of the next record would exceed the
budget and the current batch is non-empty, close the current batch and
start a new one; after all records are consumed the trailing non-empty
batch is closed. -/
def greedyBatchesGo : List OrderItem → List OrderItem → Nat → List (List OrderItem)
  | [], cur, _ => if cur = [] then [] else [cur]
  | it :: rest, cur, acc =>
      let s := emailItemSize it
      if acc + s > MAX_EMAIL_SIZE_BYTES ∧ cur ≠ [] then
        cur :: greedyBatchesGo rest [it] s
      else
        greedyBatchesGo rest (cur ++ [it]) (acc + s)

def greedyBatches (items : List OrderItem) : List (List OrderItem) :=
  greedyBatchesGo items [] 0

-- ======== ingestion orchestrator (pdfService.ts) ========

/-- Page of a document, reduced to the geometry the orchestrator reads. -/
structure PdfPage where
  widthPts : ℚ
  heightPts : ℚ
deriving DecidableEq

deriving instance DecidableEq for Except

/-- Source file: its name and either the pages of its document or the
message of the error thrown while reading or opening it.  An inner error
models a failure of getPage for that page. -/
structure PdfFile where
  name : String
  doc : Except String (List (Except String PdfPage))
deriving DecidableEq

structure PdfImportResult where
  success : Bool
  itemsCreated : Nat
  filesProcessed : Nat
  filesFailed : Nat
  errors : List String
  items : List OrderItem
deriving DecidableEq

/-- Per-file context computed once and reused for every page. -/
structure PageCtx where
  fileName : String
  fileNameBase : String
  fileOS : String
  dims : Option Dims
  colorsFound : ColorDetection
  numPages : Nat

/-- Removal of the trailing pdf extension in either case, the replace with
a dollar-anchored pattern of the source. -/
def stripPdfExt (name : String) : String :=
  if strEndsWith (strToLower name) ".pdf" then
    String.mk (name.data.take (name.data.length - 4))
  else name

/-- Field list of a well-formed order item, as the object the source
passes back through the migrator. -/
def orderItemFields (it : OrderItem) : List (String × JSPrim) :=
  [ ("id", it.id), ("os", .str it.os),
    ("clientDescription", .str it.clientDescription),
    ("colors", .str it.colors), ("jobType", it.jobType), ("date", it.date),
    ("width", .num (.num it.width)), ("height", .num (.num it.height)),
    ("games", .num (.num (it.games : ℚ))),
    ("pricePerCm2", .num (.num it.pricePerCm2)),
    ("observations", .str it.observations) ]

/-- Processing of one page: a page error is recorded and the page skipped;
dimensions come from the filename when available, else from the page
geometry with a one-centimeter margin; invalid dimensions record an error
and skip the page; otherwise the candidate item is migrated and added. -/
def processPage (genId today : String) (ctx : PageCtx) (res : PdfImportResult)
    (pageNum : Nat) (pg : Except String PdfPage) : PdfImportResult :=
  match pg with
  | .error e =>
      { res with errors := res.errors ++
          [ctx.fileName ++ " (página " ++ natToString pageNum ++ "): " ++ e] }
  | .ok page =>
      let whd : ℚ × ℚ × String :=
        match ctx.dims with
        | some d => (d.width, d.height, "Dimensões extraídas do nome do arquivo")
        | none =>
            let r := calculatePdfDimensions page.widthPts page.heightPts 1
            (r.width, r.height, "Importado de PDF (+1cm margem/lado)")
      match validateDimensions (.num whd.1) (.num whd.2.1) with
      | some err =>
          { res with errors := res.errors ++
              [ctx.fileName ++ " (página " ++ natToString pageNum ++ "): " ++ err] }
      | none =>
          let description := ctx.fileNameBase ++
            (if ctx.numPages > 1 then " - Pág " ++ natToString pageNum else "")
          let newItem : OrderItem := {
            id := .str genId, os := ctx.fileOS,
            clientDescription := description,
            colors := String.intercalate ", " ctx.colorsFound.colors,
            jobType := .str "Novo", date := .str today,
            width := whd.1, height := whd.2.1,
            games := (ctx.colorsFound.gameCount : Int),
            pricePerCm2 := DEFAULT_RATE, observations := whd.2.2 }
          match migrateOrderItem genId today (.obj (orderItemFields newItem)) with
          | .ok item =>
              { res with items := res.items ++ [item],
                         itemsCreated := res.itemsCreated + 1 }
          | .error e =>
              { res with errors := res.errors ++
                  [ctx.fileName ++ " (página " ++ natToString pageNum ++ "): " ++ e] }

def processPages (genId today : String) (ctx : PageCtx) :
    Nat → List (Except String PdfPage) → PdfImportResult → PdfImportResult
  | _, [], res => res
  | pageNum, pg :: rest, res =>
      processPages genId today ctx (pageNum + 1) rest
        (processPage genId today ctx res pageNum pg)

/-- Processing of one file of the loop of importPdfsToItems: a file whose
lowercased name does not end in the pdf extension is skipped entirely; a
file whose document cannot be read records a file error, increments the
failure counter and clears the success flag; otherwise every page is
processed and the processed counter is incremented. -/
def importFile (genId today : String) (res : PdfImportResult) (file : PdfFile) :
    PdfImportResult :=
  if !strEndsWith (strToLower file.name) ".pdf" then res
  else
    match file.doc with
    | .error e =>
        { res with errors := res.errors ++ [file.name ++ ": " ++ e],
                   filesFailed := res.filesFailed + 1,
                   success := false }
    | .ok pages =>
        let ctx : PageCtx := {
          fileName := file.name,
          fileNameBase := stripPdfExt file.name,
          fileOS := extractOS file.name,
          dims := extractDimensions file.name,
          colorsFound := detectColors file.name,
          numPages := pages.length }
        let res2 := processPages genId today ctx 1 pages res
        { res2 with filesProcessed := res2.filesProcessed + 1 }

/-- Embedding of importPdfsToItems.  An empty collection is rejected up
front with the success flag cleared; otherwise the files are folded in
order through importFile. -/
def importPdfsToItems (genId today : String) (files : List PdfFile) :
    PdfImportResult :=
  let init : PdfImportResult := ⟨true, 0, 0, 0, [], []⟩
  if files.length = 0 then
    { init with success := false, errors := ["Nenhum arquivo selecionado"] }
  else files.foldl (importFile genId today) init

-- ======== archive operation (App.tsx) ========

/-- Current date as the archive operation reads it: the ISO timestamp and
the month and year derived from it at creation. -/
structure JsDate where
  iso : String
  month : Nat
  year : Nat
deriving DecidableEq

/-- The slice of the application state the archive operation touches. -/
structure AppState where
  items : List OrderItem
  totalStock : ℚ
  history : List HistoryBatch
deriving DecidableEq

/-- Embedding of handleArchive on the confirmed path: with no current
items nothing happens; otherwise a new history batch snapshotting the
current items and stock is prepended and the working set is cleared. -/
def handleArchive (genId : String) (now : JsDate) (s : AppState) : AppState :=
  if s.items.length = 0 then s
  else
    { items := [],
      totalStock := s.totalStock,
      history := ⟨genId, now.iso, s.items, s.totalStock, now.month, now.year⟩ :: s.history }

-- ======== concrete data for the witnesses ========

/-- Items whose serialized email lines measure exactly 1000, 1000, 1000
and 1500 bytes: the line overhead around a 4-character job number, a
4-character color plan and the integer dimensions 18 by 24 is 43 bytes,
so descriptions of 957 and 1457 ASCII characters reach the stated
sizes. -/
def batchItemA : OrderItem :=
  ⟨.str "1", "4787", String.mk (List.replicate 957 'a'), "CMYK",
    .str "Novo", .str "2023-11-27", 18, 24, 4, DEFAULT_RATE, ""⟩

def batchItemB : OrderItem :=
  ⟨.str "2", "4787", String.mk (List.replicate 957 'b'), "CMYK",
    .str "Novo", .str "2023-11-27", 18, 24, 4, DEFAULT_RATE, ""⟩

def batchItemC : OrderItem :=
  ⟨.str "3", "4787", String.mk (List.replicate 957 'c'), "CMYK",
    .str "Novo", .str "2023-11-27", 18, 24, 4, DEFAULT_RATE, ""⟩

def batchItemD : OrderItem :=
  ⟨.str "4", "4787", String.mk (List.replicate 1457 'd'), "CMYK",
    .str "Novo", .str "2023-11-27", 18, 24, 4, DEFAULT_RATE, ""⟩

/-- Item whose serialized line of 4043 bytes alone exceeds the budget. -/
def oversizeItem : OrderItem :=
  ⟨.str "9", "4787", String.mk (List.replicate 4000 'e'), "CMYK",
    .str "Novo", .str "2023-11-27", 18, 24, 4, DEFAULT_RATE, ""⟩

def demoArchiveItem : OrderItem :=
  ⟨.str "1", "4787", "16293 - Alibem", "CMYK",
    .str "Novo", .str "2023-11-27", 18, 24, 4, DEFAULT_RATE, ""⟩

def demoTextFile : PdfFile := ⟨"notas.txt", .error "unreadable"⟩

def demoPdfFile : PdfFile := ⟨"4787_180x240mm_CMYK.pdf", .ok [.ok ⟨595, 842⟩]⟩

-- ======== size lemmas for the serialized email line ========

theorem utf8Len_append (s t : String) : utf8Len (s ++ t) = utf8Len s + utf8Len t := by
  cases s with
  | mk a =>
      cases t with
      | mk b =>
          show ((a ++ b).map charUtf8Size).sum =
            (a.map charUtf8Size).sum + (b.map charUtf8Size).sum
          simp

theorem utf8Len_replicate_one (n : Nat) (c : Char) (hc : charUtf8Size c = 1) :
    utf8Len (String.mk (List.replicate n c)) = n := by
  show ((List.replicate n c).map charUtf8Size).sum = n
  rw [List.map_replicate, hc]
  simp

/-- Serialized line size of an item of the shape used by the witnesses: a
4-character job number, an ASCII description of n characters, the color
plan CMYK and the integer dimensions 18 by 24 give 43 overhead bytes plus
the description. -/
theorem emailItemSize_batchShape (id0 : JSPrim) (n : Nat) (c : Char)
    (hc : charUtf8Size c = 1) :
    emailItemSize ⟨id0, "4787", String.mk (List.replicate n c), "CMYK",
      .str "Novo", .str "2023-11-27", 18, 24, 4, DEFAULT_RATE, ""⟩ = 43 + n := by
  unfold emailItemSize formatItemForEmail
  dsimp only
  rw [if_neg (by decide : ¬("CMYK" : String) = "")]
  rw [show qToString (18 : ℚ) = "18" from rfl, show qToString (24 : ℚ) = "24" from rfl,
      show natToString 1 = "1" from rfl]
  simp only [utf8Len_append]
  rw [utf8Len_replicate_one n c hc]
  rw [show utf8Len "1" = 1 from rfl, show utf8Len ". OS: " = 6 from rfl,
      show utf8Len "4787" = 4 from rfl, show utf8Len " | " = 3 from rfl,
      show utf8Len " | Cores: " = 10 from rfl, show utf8Len "CMYK" = 4 from rfl,
      show utf8Len " | Dim: " = 8 from rfl, show utf8Len "18" = 2 from rfl,
      show utf8Len "x" = 1 from rfl, show utf8Len "24" = 2 from rfl,
      show utf8Len "cm" = 2 from rfl]
  omega

-- ======== claim theorems ========

unseal Rat.mul Rat.inv Rat.add Rat.sub in
/-- C1: evaluation of the heuristic extractor at the filename of the
specification example.  The dimensions are extracted as claimed, 18 by 24
centimeters, but the job number comes back empty and no color is
detected, because the word boundaries of the job-number and color
patterns fail next to the underscores of the filename (an underscore is a
word character); the claimed values 4787, CMYK and four games are not
produced by the code. -/
theorem extractors_on_spec_filename :
    extractOS "4787_180x240mm_CMYK.pdf" = "" ∧
    extractDimensions "4787_180x240mm_CMYK.pdf" = some ⟨18, 24⟩ ∧
    detectColors "4787_180x240mm_CMYK.pdf" = ⟨[], 1⟩ := by decide

unseal Rat.mul Rat.inv Rat.add Rat.sub in
/-- C3: the migrator does not validate the job kind.  A truthy value
outside the fixed enumeration passes through unchanged, so the jobType
field of the result is not always a member of the enumeration; only a
falsy, that is missing, job kind is defaulted to Novo. -/
theorem migrate_jobType_passthrough :
    migrateOrderItem "gid" "2026-01-01" (.obj [("jobType", .str "Urgente")]) =
      .ok ⟨.str "gid", "", "", "", .str "Urgente", .str "2026-01-01",
        0, 0, 1, DEFAULT_RATE, ""⟩ ∧
    JSPrim.str "Urgente" ∉
      [JSPrim.str "Novo", JSPrim.str "Reimpressão", JSPrim.str "Ajuste"] := by
  decide

/-- C5: the migrator fails exactly on inputs that are not non-null
objects, and an object input always migrates; the empty object migrates
to the fully defaulted item with one game, the default rate, the freshly
generated id and the current date, and a null input is rejected with the
error of the source. -/
theorem migrateOrderItem_object_gate (genId today : String) (v : JSVal)
    (hid : genId ≠ "") :
    exceptOk (migrateOrderItem genId today v) = isObj v ∧
    migrateOrderItem genId today (.obj []) =
      .ok ⟨.str genId, "", "", "", .str "Novo", .str today,
        0, 0, 1, DEFAULT_RATE, ""⟩ ∧
    (∀ it : OrderItem,
      migrateOrderItem genId today (.obj []) = .ok it → it.id ≠ .str "") ∧
    migrateOrderItem genId today (.prim .null) = .error "Invalid order item" := by
  refine ⟨?_, rfl, ?_, rfl⟩
  · cases v <;> rfl
  · intro it h
    injection h with h2
    rw [← h2]
    intro hc
    exact hid (by injection hc)

theorem migrateOrderItem_object_gate_witness :
    exceptOk (migrateOrderItem "abc123def" "2026-10-12" (.prim .null)) =
      isObj (.prim .null) :=
  (migrateOrderItem_object_gate "abc123def" "2026-10-12" (.prim .null)
    (by decide)).1

/-- C7: calculateItem is pure: it extends its argument unchanged with the
derived area, width times height times games, and the derived value, area
times unit price, with no rounding, and recomputation from the underlying
order item of the result yields the same calculated item. -/
theorem calculateItem_pure_idempotent (it : OrderItem) :
    (calculateItem it).toOrderItem = it ∧
    (calculateItem it).cm2Total = it.width * it.height * (it.games : ℚ) ∧
    (calculateItem it).totalValue =
      it.width * it.height * (it.games : ℚ) * it.pricePerCm2 ∧
    calculateItem ((calculateItem it).toOrderItem) = calculateItem it :=
  ⟨rfl, rfl, rfl, rfl⟩

/-- C8: archiving a non-empty working set empties it, prepends exactly
one new history batch holding exactly the current items in their order
together with the stock snapshot and the month and year of the creation
date, and leaves every pre-existing batch and the stock unchanged. -/
theorem handleArchive_frame (genId : String) (now : JsDate) (s : AppState)
    (h : s.items ≠ []) :
    (handleArchive genId now s).items = [] ∧
    (handleArchive genId now s).history =
      ⟨genId, now.iso, s.items, s.totalStock, now.month, now.year⟩ :: s.history ∧
    (handleArchive genId now s).totalStock = s.totalStock := by
  unfold handleArchive
  rw [if_neg (by simpa [List.length_eq_zero] using h)]
  exact ⟨rfl, rfl, rfl⟩

theorem handleArchive_frame_witness :
    (handleArchive "b1" ⟨"2023-12-01T00:00:00.000Z", 11, 2023⟩
      ⟨[demoArchiveItem], 10000, []⟩).items = [] :=
  (handleArchive_frame "b1" ⟨"2023-12-01T00:00:00.000Z", 11, 2023⟩
    ⟨[demoArchiveItem], 10000, []⟩ (by decide)).1

/-- Accumulation of the recognizer fold of detectColors, reduced to a
filter over the pattern list. -/
theorem colorFold_eq (lower : String) (ps : List ColorPattern) :
    ∀ acc : List String × Nat,
      ps.foldl
        (fun (a : List String × Nat) p =>
          if p.test lower then (a.1 ++ [p.name], a.2 + p.games) else a) acc =
      (acc.1 ++ (ps.filter (fun p => p.test lower)).map (fun p => p.name),
       acc.2 + ((ps.filter (fun p => p.test lower)).map (fun p => p.games)).sum) := by
  induction ps with
  | nil => intro acc; simp
  | cons p ps ih =>
      intro acc
      by_cases h : p.test lower
      · simp [h, ih, List.filter_cons, Nat.add_assoc]
      · simp [h, ih, List.filter_cons]

/-- C9: for every filename, the detected tags are exactly the names of
the matching recognizers of the fixed ordered list, in order, and the
game count is the maximum of one and the sum of their implied counts,
hence never zero. -/
theorem detectColors_tags_and_count (s : String) :
    detectColors s =
      ⟨(colorPatterns.filter (fun p => p.test (strToLower s))).map (fun p => p.name),
        max 1 ((colorPatterns.filter (fun p => p.test (strToLower s))).map
          (fun p => p.games)).sum⟩ ∧
    1 ≤ (detectColors s).gameCount := by
  have hmain : detectColors s =
      ⟨(colorPatterns.filter (fun p => p.test (strToLower s))).map (fun p => p.name),
        max 1 ((colorPatterns.filter (fun p => p.test (strToLower s))).map
          (fun p => p.games)).sum⟩ := by
    by_cases hs : s = ""
    · subst hs; decide
    · unfold detectColors
      rw [if_neg hs]
      simp only [colorFold_eq]
      have hlist : ∀ l : List String, (if l.length > 0 then l else []) = l := by
        intro l; cases l <;> simp
      simp [hlist]
  refine ⟨hmain, ?_⟩
  rw [hmain]
  exact le_max_left 1 _

/-- Items of the loop of the partitioner, related to the greedy partition
stated from the specification wording. -/
theorem splitLoop_items_eq (items : List OrderItem) :
    ∀ (batches : List EmailBatch) (cur : List OrderItem) (curSize : Nat),
      (splitLoop items batches cur curSize).map EmailBatch.items =
        batches.map EmailBatch.items ++ greedyBatchesGo items cur curSize := by
  induction items with
  | nil =>
      intro batches cur curSize
      cases cur <;> simp [splitLoop, greedyBatchesGo]
  | cons it rest ih =>
      intro batches cur curSize
      by_cases hgt : curSize + emailItemSize it > MAX_EMAIL_SIZE_BYTES
      · cases cur with
        | nil => simp [splitLoop, greedyBatchesGo, hgt, ih]
        | cons a as => simp [splitLoop, greedyBatchesGo, hgt, ih]
      · cases cur with
        | nil => simp [splitLoop, greedyBatchesGo, hgt, ih]
        | cons a as => simp [splitLoop, greedyBatchesGo, hgt, ih]

theorem splitIntoEmailBatches_items (items : List OrderItem) :
    (splitIntoEmailBatches items).map EmailBatch.items = greedyBatches items := by
  unfold splitIntoEmailBatches greedyBatches
  simp only [List.map_map]
  have hcomp :
      (EmailBatch.items ∘ fun b =>
        { b with totalBatches := (splitLoop items [] [] 0).length }) =
        EmailBatch.items := by
    funext b; rfl
  rw [hcomp, splitLoop_items_eq]
  simp

theorem splitIntoEmailBatches_total (items : List OrderItem) :
    ∀ b ∈ splitIntoEmailBatches items,
      b.totalBatches = (splitIntoEmailBatches items).length := by
  intro b hb
  unfold splitIntoEmailBatches at hb ⊢
  rw [List.length_map]
  rcases List.mem_map.mp hb with ⟨a, _, rfl⟩
  rfl

theorem range_concat_from (s n : Nat) :
    List.range' s (n + 1) = List.range' s n ++ [s + n] := by
  induction n generalizing s with
  | zero => simp
  | succ n ih =>
      rw [List.range'_succ, ih (s + 1), List.range'_succ]
      have h2 : s + 1 + n = s + (n + 1) := by omega
      rw [h2]
      simp


/-- Invariants of the loop of the partitioner: the emitted batches join to
the already emitted items plus the current batch plus the remaining
items, no emitted batch is empty, an emitted record whose size alone
exceeds the budget is alone in its batch, and the batch numbers are the
positions from one. -/
theorem splitLoop_invariants (items : List OrderItem) :
    ∀ (batches : List EmailBatch) (cur : List OrderItem) (curSize : Nat),
      curSize = (cur.map emailItemSize).sum →
      (∀ b ∈ batches, b.items ≠ []) →
      (∀ b ∈ batches, ∀ r ∈ b.items,
        MAX_EMAIL_SIZE_BYTES < emailItemSize r → b.items = [r]) →
      (∀ r ∈ cur, MAX_EMAIL_SIZE_BYTES < emailItemSize r → cur = [r]) →
      batches.map EmailBatch.batchNumber = List.range' 1 batches.length →
      ((splitLoop items batches cur curSize).map EmailBatch.items).flatten =
          (batches.map EmailBatch.items).flatten ++ cur ++ items ∧
        (∀ b ∈ splitLoop items batches cur curSize, b.items ≠ []) ∧
        (∀ b ∈ splitLoop items batches cur curSize, ∀ r ∈ b.items,
          MAX_EMAIL_SIZE_BYTES < emailItemSize r → b.items = [r]) ∧
        (splitLoop items batches cur curSize).map EmailBatch.batchNumber =
          List.range' 1 (splitLoop items batches cur curSize).length := by
  induction items with
  | nil =>
      intro batches cur curSize hsum hne hover hcur hnum
      cases cur with
      | nil =>
          rw [show splitLoop [] batches [] curSize = batches from by simp [splitLoop]]
          exact ⟨by simp, hne, hover, hnum⟩
      | cons a as =>
          rw [show splitLoop [] batches (a :: as) curSize =
              batches ++ [⟨a :: as, batches.length + 1, 0⟩] from by simp [splitLoop]]
          refine ⟨by simp, ?_, ?_, ?_⟩
          · intro b hb
            rcases List.mem_append.mp hb with h1 | h1
            · exact hne b h1
            · simp at h1; subst h1; simp
          · intro b hb r hr hsz
            rcases List.mem_append.mp hb with h1 | h1
            · exact hover b h1 r hr hsz
            · simp at h1; subst h1; exact hcur r hr hsz
          · simp [range_concat_from, hnum, Nat.add_comm]
  | cons it rest ih =>
      intro batches cur curSize hsum hne hover hcur hnum
      by_cases hgt : curSize + emailItemSize it > MAX_EMAIL_SIZE_BYTES
      · cases cur with
        | nil =>
            rw [show splitLoop (it :: rest) batches [] curSize =
                splitLoop rest batches [it] (curSize + emailItemSize it) from by
              simp [splitLoop]]
            have hsum0 : curSize = 0 := by simpa using hsum
            subst hsum0
            have hres := ih batches [it] (0 + emailItemSize it)
              (by simp) hne hover
              (by intro r hr hsz; simp at hr; subst hr; rfl)
              hnum
            refine ⟨?_, hres.2.1, hres.2.2.1, hres.2.2.2⟩
            rw [hres.1]; simp
        | cons a as =>
            rw [show splitLoop (it :: rest) batches (a :: as) curSize =
                splitLoop rest (batches ++ [⟨a :: as, batches.length + 1, 0⟩])
                  [it] (emailItemSize it) from by
              simp [splitLoop, hgt]]
            have hres := ih (batches ++ [⟨a :: as, batches.length + 1, 0⟩])
              [it] (emailItemSize it)
              (by simp)
              (by intro b hb
                  rcases List.mem_append.mp hb with h1 | h1
                  · exact hne b h1
                  · simp at h1; subst h1; simp)
              (by intro b hb r hr hsz
                  rcases List.mem_append.mp hb with h1 | h1
                  · exact hover b h1 r hr hsz
                  · simp at h1; subst h1; exact hcur r hr hsz)
              (by intro r hr hsz; simp at hr; subst hr; rfl)
              (by simp [range_concat_from, hnum, Nat.add_comm])
            refine ⟨?_, hres.2.1, hres.2.2.1, hres.2.2.2⟩
            rw [hres.1]; simp
      · rw [show splitLoop (it :: rest) batches cur curSize =
            splitLoop rest batches (cur ++ [it]) (curSize + emailItemSize it) from by
          cases cur <;> simp [splitLoop, hgt]]
        have hcur2 : ∀ r ∈ cur ++ [it],
            MAX_EMAIL_SIZE_BYTES < emailItemSize r → cur ++ [it] = [r] := by
          intro r hr hsz
          exfalso
          rcases List.mem_append.mp hr with h1 | h1
          · have hle : emailItemSize r ≤ (cur.map emailItemSize).sum :=
              List.single_le_sum (fun x _ => Nat.zero_le x) _
                (List.mem_map_of_mem emailItemSize h1)
            rw [← hsum] at hle
            omega
          · simp at h1; subst h1; omega
        have hres := ih batches (cur ++ [it]) (curSize + emailItemSize it)
          (by simp [hsum]) hne hover hcur2 hnum
        refine ⟨?_, hres.2.1, hres.2.2.1, hres.2.2.2⟩
        rw [hres.1]; simp

/-- C2: the partitioner follows the greedy rule: the items of the
produced batches are exactly the greedy partition that closes the current
batch exactly when the accumulated size plus the size of the next record
strictly exceeds the budget and the current batch is non-empty; after
partitioning every batch carries the final batch count; and on four
records of sizes 1000, 1000, 1000 and 1500 bytes with the budget of 4000
bytes the result is the first three records as batch one and the fourth
alone as batch two, both with a total of two. -/
theorem splitIntoEmailBatches_greedy (items : List OrderItem)
    (i1 i2 i3 i4 : OrderItem)
    (h1 : emailItemSize i1 = 1000) (h2 : emailItemSize i2 = 1000)
    (h3 : emailItemSize i3 = 1000) (h4 : emailItemSize i4 = 1500) :
    (splitIntoEmailBatches items).map EmailBatch.items = greedyBatches items ∧
    (∀ b ∈ splitIntoEmailBatches items,
      b.totalBatches = (splitIntoEmailBatches items).length) ∧
    splitIntoEmailBatches [i1, i2, i3, i4] =
      [⟨[i1, i2, i3], 1, 2⟩, ⟨[i4], 2, 2⟩] := by
  refine ⟨splitIntoEmailBatches_items items, splitIntoEmailBatches_total items, ?_⟩
  simp [splitIntoEmailBatches, splitLoop, h1, h2, h3, h4, MAX_EMAIL_SIZE_BYTES]

theorem splitIntoEmailBatches_greedy_witness :
    splitIntoEmailBatches [batchItemA, batchItemB, batchItemC, batchItemD] =
      [⟨[batchItemA, batchItemB, batchItemC], 1, 2⟩, ⟨[batchItemD], 2, 2⟩] :=
  (splitIntoEmailBatches_greedy [batchItemA, batchItemB, batchItemC, batchItemD]
    batchItemA batchItemB batchItemC batchItemD
    ((emailItemSize_batchShape (.str "1") 957 'a' rfl).trans (by norm_num))
    ((emailItemSize_batchShape (.str "2") 957 'b' rfl).trans (by norm_num))
    ((emailItemSize_batchShape (.str "3") 957 'c' rfl).trans (by norm_num))
    ((emailItemSize_batchShape (.str "4") 1457 'd' rfl).trans (by norm_num))).2.2

/-- C6: the partition is lossless and order preserving: the concatenation
of the batch item lists in batch order is the input list, no produced
batch is empty, a record whose size alone exceeds the budget is alone in
its batch, and the batch numbers are one-based and strictly increasing in
construction order. -/
theorem splitIntoEmailBatches_partition (items : List OrderItem) :
    ((splitIntoEmailBatches items).map EmailBatch.items).flatten = items ∧
    (∀ b ∈ splitIntoEmailBatches items, b.items ≠ []) ∧
    (∀ b ∈ splitIntoEmailBatches items, ∀ r ∈ b.items,
      MAX_EMAIL_SIZE_BYTES < emailItemSize r → b.items = [r]) ∧
    (splitIntoEmailBatches items).map EmailBatch.batchNumber =
      List.range' 1 (splitIntoEmailBatches items).length := by
  have h := splitLoop_invariants items [] [] 0 (by simp) (by simp) (by simp)
    (by simp) (by simp)
  have hitems : (splitIntoEmailBatches items).map EmailBatch.items =
      (splitLoop items [] [] 0).map EmailBatch.items := by
    unfold splitIntoEmailBatches
    simp only [List.map_map]
    have hcomp : (EmailBatch.items ∘ fun b =>
        { b with totalBatches := (splitLoop items [] [] 0).length }) =
          EmailBatch.items := by funext b; rfl
    rw [hcomp]
  have hnums : (splitIntoEmailBatches items).map EmailBatch.batchNumber =
      (splitLoop items [] [] 0).map EmailBatch.batchNumber := by
    unfold splitIntoEmailBatches
    simp only [List.map_map]
    have hcomp : (EmailBatch.batchNumber ∘ fun b =>
        { b with totalBatches := (splitLoop items [] [] 0).length }) =
          EmailBatch.batchNumber := by funext b; rfl
    rw [hcomp]
  have hlen : (splitIntoEmailBatches items).length =
      (splitLoop items [] [] 0).length := by
    unfold splitIntoEmailBatches
    simp
  refine ⟨?_, ?_, ?_, ?_⟩
  · rw [hitems, h.1]; simp
  · intro b hb
    rcases List.mem_map.mp (by simpa [splitIntoEmailBatches] using hb) with ⟨a, ha, rfl⟩
    have : ({ a with totalBatches := (splitLoop items [] [] 0).length }).items =
        a.items := rfl
    rw [this]
    exact h.2.1 a ha
  · intro b hb r hr hsz
    rcases List.mem_map.mp (by simpa [splitIntoEmailBatches] using hb) with ⟨a, ha, rfl⟩
    have he : ({ a with totalBatches := (splitLoop items [] [] 0).length }).items =
        a.items := rfl
    rw [he] at hr ⊢
    exact h.2.2.1 a ha r hr hsz
  · rw [hnums, hlen, h.2.2.2]

theorem oversizeItem_size : emailItemSize oversizeItem = 4043 :=
  (emailItemSize_batchShape (.str "9") 4000 'e' rfl).trans (by norm_num)

theorem oversize_split_eq :
    splitIntoEmailBatches [oversizeItem] = [⟨[oversizeItem], 1, 1⟩] := by
  simp [splitIntoEmailBatches, splitLoop]

theorem splitIntoEmailBatches_partition_witness :
    ((splitIntoEmailBatches [oversizeItem]).map EmailBatch.items).flatten =
        [oversizeItem] ∧
      EmailBatch.items ⟨[oversizeItem], 1, 1⟩ = [oversizeItem] :=
  ⟨(splitIntoEmailBatches_partition [oversizeItem]).1,
    (splitIntoEmailBatches_partition [oversizeItem]).2.2.1 ⟨[oversizeItem], 1, 1⟩
      (by rw [oversize_split_eq]; exact List.mem_singleton.mpr rfl)
      oversizeItem (List.mem_singleton.mpr rfl)
      (by rw [oversizeItem_size]; norm_num [MAX_EMAIL_SIZE_BYTES])⟩

/-- Page processing touches only the error list, the item list and the
created counter: the success flag and the failure counter pass through. -/
theorem processPage_counters (genId today : String) (ctx : PageCtx)
    (res : PdfImportResult) (pageNum : Nat) (pg : Except String PdfPage) :
    (processPage genId today ctx res pageNum pg).success = res.success ∧
    (processPage genId today ctx res pageNum pg).filesFailed = res.filesFailed := by
  unfold processPage
  repeat' first
  | exact ⟨rfl, rfl⟩
  | split
  | dsimp only

theorem processPages_counters (genId today : String) (ctx : PageCtx) :
    ∀ (pgs : List (Except String PdfPage)) (n : Nat) (res : PdfImportResult),
      (processPages genId today ctx n pgs res).success = res.success ∧
      (processPages genId today ctx n pgs res).filesFailed = res.filesFailed := by
  intro pgs
  induction pgs with
  | nil => intro n res; exact ⟨rfl, rfl⟩
  | cons pg rest ih =>
      intro n res
      have hp := processPage_counters genId today ctx res n pg
      have hr := ih (n + 1) (processPage genId today ctx res n pg)
      exact ⟨hr.1.trans hp.1, hr.2.trans hp.2⟩

/-- The file loop keeps the success flag equivalent to the absence of
file-level failures. -/
theorem importFile_inv (genId today : String) (res : PdfImportResult) (f : PdfFile)
    (h : res.success = true ↔ res.filesFailed = 0) :
    (importFile genId today res f).success = true ↔
      (importFile genId today res f).filesFailed = 0 := by
  unfold importFile
  split
  · exact h
  · split
    · simp
    · rename_i pages heq
      dsimp only
      have hgoal : ∀ ctx : PageCtx,
          (({ processPages genId today ctx 1 pages res with
              filesProcessed :=
                (processPages genId today ctx 1 pages res).filesProcessed + 1 }).success
              = true ↔
            ({ processPages genId today ctx 1 pages res with
              filesProcessed :=
                (processPages genId today ctx 1 pages res).filesProcessed + 1 }).filesFailed
              = 0) := by
        intro ctx
        have hc := processPages_counters genId today ctx pages 1 res
        show (processPages genId today ctx 1 pages res).success = true ↔
          (processPages genId today ctx 1 pages res).filesFailed = 0
        rw [hc.1, hc.2]
        exact h
      exact hgoal _

theorem importFold_inv (genId today : String) :
    ∀ (files : List PdfFile) (res : PdfImportResult),
      (res.success = true ↔ res.filesFailed = 0) →
      ((files.foldl (importFile genId today) res).success = true ↔
        (files.foldl (importFile genId today) res).filesFailed = 0) := by
  intro files
  induction files with
  | nil => intro res h; exact h
  | cons f fs ih => intro res h; exact ih _ (importFile_inv genId today res f h)

/-- C4 (amended): for every non-empty file collection the success flag is
set exactly when no file-level failure occurred; page-level errors join
the error list without clearing the flag.  The empty collection is
special-cased by the source to a failed result that has no failed file,
which refutes the claim as stated over every collection. -/
theorem importPdfs_success_iff_no_file_failures (genId today : String)
    (files : List PdfFile) (h : files ≠ []) :
    (importPdfsToItems genId today files).success = true ↔
      (importPdfsToItems genId today files).filesFailed = 0 := by
  unfold importPdfsToItems
  rw [if_neg (by simpa using h)]
  exact importFold_inv genId today files _ (by simp)

unseal Rat.mul Rat.inv Rat.add Rat.sub in
theorem importPdfs_success_iff_witness :
    (importPdfsToItems "gid" "2026-01-01" [demoPdfFile]).success = true :=
  (importPdfs_success_iff_no_file_failures "gid" "2026-01-01" [demoPdfFile]
    (by decide)).mpr (by decide)

/-- C4 counterexample: at the empty collection the result has the success
flag cleared although the failure counter is zero, so success is not
equivalent to the absence of file-level failures on every input. -/
theorem importPdfs_empty_collection :
    (importPdfsToItems "gid" "2026-01-01" []).success = false ∧
    (importPdfsToItems "gid" "2026-01-01" []).filesFailed = 0 := by decide

/-- C10: a file whose lowercased name does not end in the pdf extension
is skipped silently by the file loop, leaving the whole result unchanged,
and a non-empty collection of only such files returns a successful result
with zero items, zero processed files, zero failed files and no error. -/
theorem importPdfs_skips_non_pdf (genId today : String)
    (res : PdfImportResult) (f : PdfFile) (files : List PdfFile)
    (hf : strEndsWith (strToLower f.name) ".pdf" = false)
    (hne : files ≠ [])
    (hall : ∀ g ∈ files, strEndsWith (strToLower g.name) ".pdf" = false) :
    importFile genId today res f = res ∧
    importPdfsToItems genId today files = ⟨true, 0, 0, 0, [], []⟩ := by
  constructor
  · unfold importFile
    rw [hf]
    rfl
  · unfold importPdfsToItems
    rw [if_neg (by simpa using hne)]
    have hfold : ∀ (fs : List PdfFile),
        (∀ g ∈ fs, strEndsWith (strToLower g.name) ".pdf" = false) →
        ∀ r : PdfImportResult, fs.foldl (importFile genId today) r = r := by
      intro fs
      induction fs with
      | nil => intro _ r; rfl
      | cons g gs ih =>
          intro hgs r
          have hskip : importFile genId today r g = r := by
            unfold importFile
            rw [hgs g (by simp)]
            rfl
          rw [List.foldl_cons, hskip]
          exact ih (fun x hx => hgs x (by simp [hx])) r
    exact hfold files hall _

theorem importPdfs_skips_non_pdf_witness :
    importFile "gid" "2026-01-01" ⟨true, 0, 0, 0, [], []⟩ demoTextFile =
        ⟨true, 0, 0, 0, [], []⟩ ∧
      importPdfsToItems "gid" "2026-01-01" [demoTextFile] = ⟨true, 0, 0, 0, [], []⟩ :=
  importPdfs_skips_non_pdf "gid" "2026-01-01" ⟨true, 0, 0, 0, [], []⟩ demoTextFile
    [demoTextFile] (by decide) (by decide) (by decide)
